import Mathlib

/-!
Verification development for the OMG-IDL-to-Rust code generator.

The Rust sources are shallowly embedded:

* `src/rtps-idl-code-gen/src/ast.rs` — the IR (`IdlValueExpr`, `IdlTypeSpec`,
  `IdlModule`, ...) and its renderer (`Display` impls and the `render`
  methods).  Rust `Display` implementations that may call `unwrap()` on
  `None` (a runtime abort) are embedded as `Option String`, with `none`
  standing for the abort.
* `src/omg-idl-code-gen/src/lib.rs` — the semantic analyzer (`Context`
  and its `read_*` / `process` methods) and the driver
  (`generate_with_loader`).  The external parser, template engine, and
  loader are parameters, following their contracts in the spec.

Rust's `LinkedHashMap` is embedded as an insertion-ordered association
list.  Machine details that none of the embedded code depends on (byte
positions inside `pest` spans are kept as plain `Nat`) are simplified.
-/

namespace OmgIdlGen

/-! ## The IR of `rtps-idl-code-gen/src/ast.rs` -/

/-- `const INDENTION: usize = 4;` -/
def INDENTION : Nat := 4

/-- `const IMPORT_VEC: &str = "use std::vec::Vec;";` -/
def IMPORT_VEC : String := "use std::vec::Vec;"

/-- `const ATTR_ALLOW_UNUSED_IMPORTS` from `ast.rs`. -/
def ATTR_ALLOW_UNUSED_IMPORTS : String := "#[allow(unused_imports)]"

/-- `const IMPORT_SERDE` from `ast.rs`. -/
def IMPORT_SERDE : String := "use serde_derive::\x7bSerialize, Deserialize\x7d;"

/-- `enum UnaryOp` of `ast.rs`. -/
inductive RUnaryOp where
  | Neg
  | Pos
  | Inverse
  deriving DecidableEq, Repr

/-- `UnaryOp::to_str`. -/
def RUnaryOp.to_str : RUnaryOp → String
  | .Neg => "-"
  | .Pos => "+"
  | .Inverse => "~"

/-- `enum BinaryOp` of `ast.rs`. -/
inductive RBinaryOp where
  | Add
  | Sub
  | Mul
  | Div
  | Mod
  | LShift
  | RShift
  | Or
  | Xor
  | And
  deriving DecidableEq, Repr

/-- `BinaryOp::to_str`. -/
def RBinaryOp.to_str : RBinaryOp → String
  | .Add => "+"
  | .Sub => "-"
  | .Mul => "*"
  | .Div => "/"
  | .Mod => "%"
  | .LShift => "<<"
  | .RShift => ">>"
  | .Or => "|"
  | .Xor => "^"
  | .And => "&"

/-- `struct IdlScopedName(pub Vec<String>, pub bool)`: the components and
the `absolute` flag (whether the source text began with `::`). -/
structure IdlScopedName where
  components : List String
  absolute : Bool
  deriving DecidableEq, Repr

/-- `impl fmt::Display for IdlScopedName`: iterate the components with
their index; component 0 is emitted bare (relative) or prefixed with
`crate::` (absolute); later components are prefixed with `::`. -/
def IdlScopedName.render (n : IdlScopedName) : String :=
  (n.components.enum.map (fun p =>
    if p.1 = 0 ∧ ¬ n.absolute then p.2
    else if p.1 = 0 ∧ n.absolute then "crate::" ++ p.2
    else "::" ++ p.2)).foldl (· ++ ·) ""

/-- `enum IdlValueExpr` of `ast.rs`. -/
inductive IdlValueExpr where
  | None
  | DecLiteral (v : String)
  | HexLiteral (v : String)
  | OctLiteral (v : String)
  | CharLiteral (v : String)
  | WideCharLiteral (v : String)
  | StringLiteral (v : String)
  | WideStringLiteral (v : String)
  | BooleanLiteral (v : Bool)
  | FloatLiteral (integral fraction expo suffix : Option String)
  | UnaryOp (op : RUnaryOp) (e : IdlValueExpr)
  | BinaryOp (op : RBinaryOp) (e : IdlValueExpr)
  | Expr (e1 e2 : IdlValueExpr)
  | Brace (e : IdlValueExpr)
  | ScopedName (n : IdlScopedName)
  deriving DecidableEq, Repr

/-- `impl fmt::Display for IdlValueExpr`.  The `FloatLiteral` arm calls
`unwrap()` on each of the four optional parts, which aborts the process
when a part is missing; the abort is modelled as `none`. -/
def IdlValueExpr.render : IdlValueExpr → Option String
  | .None => some ""
  | .DecLiteral v => some v
  | .HexLiteral v => some v
  | .OctLiteral v => some v
  | .CharLiteral v => some v
  | .WideCharLiteral v => some v
  | .StringLiteral v => some v
  | .WideStringLiteral v => some v
  | .BooleanLiteral v => some (if v then "true" else "false")
  | .UnaryOp op e => do pure (op.to_str ++ (← e.render))
  | .BinaryOp op e => do pure (op.to_str ++ (← e.render))
  | .Expr e1 e2 => do pure ((← e1.render) ++ (← e2.render))
  | .Brace e => do pure ("(" ++ (← e.render) ++ ")")
  | .FloatLiteral integral fraction expo suffix => do
      pure ((← integral) ++ "." ++ (← fraction) ++ "e" ++ (← expo) ++ (← suffix))
  | .ScopedName n => some n.render

/-- `enum IdlTypeSpec` of `ast.rs`. -/
inductive IdlTypeSpec where
  | None
  | ArrayType (elem : IdlTypeSpec) (dims : List IdlValueExpr)
  | SequenceType (elem : IdlTypeSpec)
  | StringType (bound : Option IdlValueExpr)
  | WideStringType (bound : Option IdlValueExpr)
  | F32Type
  | F64Type
  | F128Type
  | I16Type
  | I32Type
  | I64Type
  | U16Type
  | U32Type
  | U64Type
  | CharType
  | WideCharType
  | BooleanType
  | OctetType
  | ScopedName (n : IdlScopedName)
  deriving DecidableEq, Repr

/-- Text repeated `n` times (Rust `str::repeat`). -/
def strRepeat (s : String) (n : Nat) : String :=
  String.join (List.replicate n s)

/-- `impl fmt::Display for IdlTypeSpec`.  The `_ => unimplemented!()`
arm (reached only by `IdlTypeSpec::None`) aborts the process, modelled as
`none`; sub-expression rendering may abort as well. -/
def IdlTypeSpec.render : IdlTypeSpec → Option String
  | .F32Type => some "f32"
  | .F64Type => some "f64"
  | .F128Type => some "f128"
  | .I16Type => some "i16"
  | .I32Type => some "i32"
  | .I64Type => some "i64"
  | .U16Type => some "u16"
  | .U32Type => some "u32"
  | .U64Type => some "u64"
  | .CharType => some "char"
  | .WideCharType => some "char"
  | .BooleanType => some "bool"
  | .OctetType => some "u8"
  | .StringType _ => some "String"
  | .WideStringType _ => some "String"
  | .SequenceType elem => do pure ("Vec<" ++ (← elem.render) ++ ">")
  | .ArrayType elem dims => do
      let rendered ← dims.mapM IdlValueExpr.render
      let dimListStr := String.join (rendered.map (fun e => ";" ++ e ++ "]"))
      pure (strRepeat "[" dims.length ++ (← elem.render) ++ dimListStr)
  | .ScopedName n => some n.render
  | .None => none

/-- `struct IdlStructMember`. -/
structure IdlStructMember where
  id : String
  type_spec : IdlTypeSpec
  deriving DecidableEq, Repr

/-- `struct IdlSwitchElement`. -/
structure IdlSwitchElement where
  id : String
  type_spec : IdlTypeSpec
  deriving DecidableEq, Repr

/-- `enum IdlSwitchLabel`. -/
inductive IdlSwitchLabel where
  | Label (e : IdlValueExpr)
  | Default
  deriving DecidableEq, Repr

/-- `struct IdlSwitchCase`. -/
structure IdlSwitchCase where
  labels : List IdlSwitchLabel
  elem_spec : IdlSwitchElement
  deriving DecidableEq, Repr

/-- `enum IdlTypeDclKind`. -/
inductive IdlTypeDclKind where
  | None
  | TypeDcl (id : String) (spec : IdlTypeSpec)
  | StructDcl (id : String) (members : List IdlStructMember)
  | UnionDcl (id : String) (disc : IdlTypeSpec) (cases : List IdlSwitchCase)
  | EnumDcl (id : String) (enumerators : List String)
  deriving DecidableEq, Repr

/-- `struct IdlTypeDcl(pub IdlTypeDclKind)`. -/
structure IdlTypeDcl where
  kind : IdlTypeDclKind
  deriving DecidableEq, Repr

/-- `struct IdlConstDcl`. -/
structure IdlConstDcl where
  id : String
  typedcl : IdlTypeSpec
  value : IdlValueExpr
  deriving DecidableEq, Repr

/-! ## The renderer of `rtps-idl-code-gen/src/ast.rs`

The template engine is external (spec section 6): `get_template(name)` may
fail and `template.render(context)` may fail.  It is embedded as a
parameter `tmpl : String → TmplCtx → Option String`; `none` covers a
missing template as well as a render failure.  The context dictionaries
passed by each `render` call are embedded as `TmplCtx`. -/

/-- Record serialized for the `struct.j2` template (`IdlStructField`). -/
structure IdlStructField where
  name : String
  type_str : String
  deriving DecidableEq, Repr

/-- Record serialized for the `union_switch.j2` template (`IdlSwitchField`). -/
structure IdlSwitchField where
  name : String
  element_id : String
  element_type : String
  deriving DecidableEq, Repr

/-- The context dictionaries handed to `minijinja` by the `render`
methods, one constructor per template call site. -/
inductive TmplCtx where
  | typedefCtx (typedef_name typedef_type : String) (indent_level : Nat)
  | structCtx (struct_name : String) (fields : List IdlStructField) (indent_level : Nat)
  | enumCtx (enum_name : String) (variants : List String) (indent_level : Nat)
  | unionCtx (union_name : String) (union_members : List IdlSwitchField) (indent_level : Nat)
  | constCtx (const_name const_type const_value : String) (indent_level : Nat)
  | moduleCtx (module_name module_information : String) (indent_level : Nat)
  deriving DecidableEq, Repr

/-- Template engine of the embedding, see above. -/
abbrev Tmpl : Type := String → TmplCtx → Option String

/-- The per-label entry built inside `IdlTypeDcl::render`'s `UnionDcl`
arm: label text (rendered value expression, or `"default"`). -/
def IdlSwitchLabel.renderName : IdlSwitchLabel → Option String
  | .Label l => l.render
  | .Default => some "default"

/-- The `union_members` vector of `IdlTypeDcl::render` (`UnionDcl` arm):
`switch_cases.iter().flat_map(|case| case.labels.iter().map(|label| ...))`,
one `IdlSwitchField` per label of each case. -/
def unionMembersOfCase (c : IdlSwitchCase) : Option (List IdlSwitchField) :=
  c.labels.mapM (fun label => do
    pure { name := (← label.renderName),
           element_id := c.elem_spec.id,
           element_type := (← c.elem_spec.type_spec.render) })

/-- The full `union_members` list over all cases, in case order. -/
def unionMembers (cases : List IdlSwitchCase) : Option (List IdlSwitchField) :=
  (cases.mapM unionMembersOfCase).map List.flatten

/-- `IdlTypeDcl::render`. -/
def IdlTypeDcl.render (tmpl : Tmpl) (d : IdlTypeDcl) (level : Nat) : Option String :=
  match d.kind with
  | .TypeDcl id spec => do
      tmpl "typedef.j2" (.typedefCtx id (← spec.render) level)
  | .StructDcl id members => do
      let fields ← members.mapM (fun field => do
        pure ({ name := field.id, type_str := (← field.type_spec.render) } : IdlStructField))
      tmpl "struct.j2" (.structCtx id fields level)
  | .EnumDcl id enums =>
      tmpl "enum.j2" (.enumCtx id enums level)
  | .UnionDcl id _ switch_cases => do
      tmpl "union_switch.j2" (.unionCtx id (← unionMembers switch_cases) level)
  | .None => some ""

/-- `IdlConstDcl::render`. -/
def IdlConstDcl.render (tmpl : Tmpl) (c : IdlConstDcl) (level : Nat) : Option String := do
  tmpl "const.j2" (.constCtx c.id (← c.typedcl.render) (← c.value.render) level)

/-- `struct IdlModule`: the module-table node.  The three
`LinkedHashMap`s are embedded as insertion-ordered association lists. -/
inductive IdlModule where
  | mk (id : Option String) (uses : List String)
       (modules : List (String × IdlModule))
       (types : List (String × IdlTypeDcl))
       (constants : List (String × IdlConstDcl))

/-- Field `id` of `IdlModule`. -/
def IdlModule.id : IdlModule → Option String
  | .mk i _ _ _ _ => i

/-- Field `uses` of `IdlModule`. -/
def IdlModule.uses : IdlModule → List String
  | .mk _ u _ _ _ => u

/-- Field `modules` of `IdlModule`. -/
def IdlModule.modules : IdlModule → List (String × IdlModule)
  | .mk _ _ m _ _ => m

/-- Field `types` of `IdlModule`. -/
def IdlModule.types : IdlModule → List (String × IdlTypeDcl)
  | .mk _ _ _ t _ => t

/-- Field `constants` of `IdlModule`. -/
def IdlModule.constants : IdlModule → List (String × IdlConstDcl)
  | .mk _ _ _ _ c => c

/-- `IdlModule::new(id)`: fresh module with empty maps. -/
def IdlModule.new (id : Option String) : IdlModule :=
  .mk id [] [] [] []

/-- `n` spaces, the expansion of a Rust width format such as
`{:indent$}` applied to the empty string. -/
def spaces (n : Nat) : String :=
  String.mk (List.replicate n ' ')

/-- The two-line block emitted for one import: the
`#[allow(unused_imports)]` attribute line and the `use` line, each
indented by `ind` spaces. -/
def importBlock (ind : Nat) (importLine : String) : String :=
  spaces ind ++ ATTR_ALLOW_UNUSED_IMPORTS ++ "\n" ++ spaces ind ++ importLine ++ "\n"

/-- The `uses` loop of `IdlModule::render`: one `importBlock` per entry
of `self.uses`, indented by `level * INDENTION`. -/
def usesBlock (uses : List String) (level : Nat) : String :=
  String.join (uses.map (fun required_use => importBlock (level * INDENTION) required_use))

mutual

/-- `IdlModule::render`: build `module_info` and wrap it in the
`module.j2` template when `id` is present, or return it bare for the
root. -/
def IdlModule.render (tmpl : Tmpl) : IdlModule → Nat → Option String
  | .mk id uses modules types constants, level => do
      let body ← IdlModule.moduleInfo tmpl (.mk id uses modules types constants) level
      match id with
      | some id_str => tmpl "module.j2" (.moduleCtx id_str body level)
      | none => some body

/-- The `module_info` accumulation inside `IdlModule::render`: the
`uses` blocks at `level * INDENTION`, the vec and serde imports at
`(level + add) * INDENTION`, then the rendered types, sub-modules and
constants (each followed by a newline), where `add` is 1 for a named
module and 0 for the root. -/
def IdlModule.moduleInfo (tmpl : Tmpl) : IdlModule → Nat → Option String
  | .mk id uses modules types constants, level => do
      let add := if id.isSome then 1 else 0
      let header := usesBlock uses level
        ++ importBlock ((level + add) * INDENTION) IMPORT_VEC
        ++ importBlock ((level + add) * INDENTION) IMPORT_SERDE
      let typesStr ← IdlModule.renderTypes tmpl types (level + add)
      let modulesStr ← IdlModule.renderModules tmpl modules (level + add)
      let constantsStr ← IdlModule.renderConstants tmpl constants (level + add)
      pure (header ++ typesStr ++ modulesStr ++ constantsStr)

/-- The `types` loop of `IdlModule::render`: each entry rendered then a
newline appended. -/
def IdlModule.renderTypes (tmpl : Tmpl) : List (String × IdlTypeDcl) → Nat → Option String
  | [], _ => some ""
  | (_, t) :: rest, lvl => do
      let s ← t.render tmpl lvl
      let r ← IdlModule.renderTypes tmpl rest lvl
      pure (s ++ "\n" ++ r)

/-- The `modules` loop of `IdlModule::render`: each sub-module rendered
then a newline appended. -/
def IdlModule.renderModules (tmpl : Tmpl) : List (String × IdlModule) → Nat → Option String
  | [], _ => some ""
  | (_, m) :: rest, lvl => do
      let s ← IdlModule.render tmpl m lvl
      let r ← IdlModule.renderModules tmpl rest lvl
      pure (s ++ "\n" ++ r)

/-- The `constants` loop of `IdlModule::render`: each entry rendered
then a newline appended. -/
def IdlModule.renderConstants (tmpl : Tmpl) : List (String × IdlConstDcl) → Nat → Option String
  | [], _ => some ""
  | (_, c) :: rest, lvl => do
      let s ← c.render tmpl lvl
      let r ← IdlModule.renderConstants tmpl rest lvl
      pure (s ++ "\n" ++ r)

end

/-! ## The module table of `omg-idl-code-gen/src/lib.rs`

`LinkedHashMap` operations used by `Context`: `entry(k).or_insert(v)`
appends a fresh entry at the end when the key is absent and otherwise
leaves the map unchanged, returning a mutable reference to the entry. -/

/-- Key membership in an association list. -/
def lhmContains {α : Type} (l : List (String × α)) (k : String) : Bool :=
  l.any (fun p => p.1 == k)

/-- First value stored under `k`. -/
def lhmGet {α : Type} : List (String × α) → String → Option α
  | [], _ => none
  | p :: rest, k => if p.1 == k then some p.2 else lhmGet rest k

/-- Store `v` under `k`: overwrite in place if present (the effect of
mutating through the reference returned by `entry`), append otherwise. -/
def lhmSet {α : Type} : List (String × α) → String → α → List (String × α)
  | [], k, v => [(k, v)]
  | p :: rest, k, v => if p.1 == k then (k, v) :: rest else p :: lhmSet rest k v

/-- `entry(k).or_insert(v)`: insert only if `k` is absent. -/
def lhmEntryOrInsert {α : Type} (l : List (String × α)) (k : String) (v : α) :
    List (String × α) :=
  if lhmContains l k then l else l ++ [(k, v)]

/-- A `Scope`: `Vec<String>` naming the chain of enclosing modules. -/
abbrev Scope : Type := List String

/-- The combined effect of `Context::lookup_module(scope)` followed by a
mutation `f` of the returned module: descend from the root along
`scope`, materializing missing sub-modules (`entry(name).or_insert(new)`)
on the way, and apply `f` to the leaf. -/
def IdlModule.updateAt : IdlModule → List String → (IdlModule → IdlModule) → IdlModule
  | m, [], f => f m
  | .mk id uses modules types constants, name :: rest, f =>
      let child := match lhmGet modules name with
        | some c => c
        | none => IdlModule.new (some name)
      (.mk id uses (lhmSet modules name (child.updateAt rest f)) types constants)

/-- Replace the `types` map of a module. -/
def IdlModule.withTypes (m : IdlModule) (t : List (String × IdlTypeDcl)) : IdlModule :=
  .mk m.id m.uses m.modules t m.constants

/-- Replace the `constants` map of a module. -/
def IdlModule.withConstants (m : IdlModule) (c : List (String × IdlConstDcl)) : IdlModule :=
  .mk m.id m.uses m.modules m.types c

/-- `Context::lookup_module` alone (mutation-free descent, still
materializing missing modules): `updateAt` with the identity. -/
def IdlModule.lookupModule (m : IdlModule) (scope : List String) : IdlModule :=
  m.updateAt scope (fun x => x)

/-- `Context::add_type_dcl`: `lookup_module(scope).types.entry(key).or_insert(dcl)`. -/
def IdlModule.add_type_dcl (m : IdlModule) (scope : List String) (key : String)
    (type_dcl : IdlTypeDcl) : IdlModule :=
  m.updateAt scope (fun leaf => leaf.withTypes (lhmEntryOrInsert leaf.types key type_dcl))

/-- `Context::add_const_dcl`: `lookup_module(scope).constants.entry(key).or_insert(dcl)`. -/
def IdlModule.add_const_dcl (m : IdlModule) (scope : List String) (key : String)
    (const_dcl : IdlConstDcl) : IdlModule :=
  m.updateAt scope (fun leaf => leaf.withConstants (lhmEntryOrInsert leaf.constants key const_dcl))

/-! ## The parse tree and the analyzer of `omg-idl-code-gen/src/lib.rs`

The parser is external (spec section 6).  Its tagged tree is embedded as
`PTree`: a kind tag from the grammar's production set, the original
lexeme, a source position and the ordered children.  Only the rules the
analyzer dispatches on need their own tag; every other production is
covered by `Rule.other` (all of them take the analyzer's catch-all
paths). -/

/-- The grammar rules `lib.rs` dispatches on (plus `specification`,
wrapper rules and a generic `other`). -/
inductive Rule where
  | specification
  | definition
  | module_dcl
  | struct_def
  | union_def
  | type_declarator
  | enum_dcl
  | const_dcl
  | include_directive
  | identifier
  | enumerator
  | scoped_name
  | const_expr
  | unary_expr
  | primary_expr
  | and_expr
  | or_expr
  | xor_expr
  | lshift_expr
  | rshift_expr
  | add_expr
  | sub_expr
  | mul_expr
  | div_expr
  | mod_expr
  | literal
  | decimal_integer_literal
  | octal_integer_literal
  | hex_integer_literal
  | floating_pt_literal
  | integral_part
  | fractional_part
  | exponent
  | float_suffix
  | boolean_literal
  | character_literal
  | wide_character_literal
  | string_literal
  | wide_string_literal
  | float
  | double
  | long_double
  | unsigned_short_int
  | unsigned_longlong_int
  | unsigned_long_int
  | signed_short_int
  | signed_longlong_int
  | signed_long_int
  | char_type
  | wide_char_type
  | boolean_type
  | octet_type
  | string_type
  | wide_string_type
  | sequence_type
  | simple_declarator
  | array_declarator
  | fixed_array_size
  | any_declarators
  | declarator
  | declarators
  | member
  | switch_type_spec
  | switch_body
  | case_label
  | element_spec
  | case_production
  | path_spec
  | other
  deriving DecidableEq, Repr

/-- A `pest` `Pair`: rule tag, matched lexeme (`as_str`), start of the
span (`as_span().start_pos()`, kept abstract as a `Nat`) and the ordered
children (`into_inner`). -/
inductive PTree where
  | mk (rule : Rule) (text : String) (pos : Nat) (children : List PTree)

/-- Rule tag of a pair (`as_rule`). -/
def PTree.rule : PTree → Rule
  | .mk r _ _ _ => r

/-- Lexeme of a pair (`as_str`). -/
def PTree.text : PTree → String
  | .mk _ t _ _ => t

/-- Start position of a pair's span. -/
def PTree.pos : PTree → Nat
  | .mk _ _ p _ => p

/-- Children of a pair (`into_inner`). -/
def PTree.children : PTree → List PTree
  | .mk _ _ _ c => c

/-- A `pest::error::Error`: custom message plus the position it was
raised at. -/
structure PError where
  message : String
  pos : Nat
  deriving DecidableEq, Repr

/-- Outcome of a `read_*` method: a value, a `pest` error (Rust `Err`),
or a process abort (Rust `panic` / `unwrap` failure). -/
inductive Res (α : Type) where
  | panicked
  | err (e : PError)
  | ok (a : α)

instance : Monad Res where
  pure a := .ok a
  bind r f := match r with
    | .panicked => .panicked
    | .err e => .err e
    | .ok a => f a

/-- `Res.panicked`, `Res.err` and `Res.ok` are pairwise distinct, so
equations about them are decidable when the value type is. -/
instance {α : Type} [DecidableEq α] : DecidableEq (Res α) := fun a b =>
  match a, b with
  | .panicked, .panicked => isTrue rfl
  | .err e₁, .err e₂ =>
      if h : e₁ = e₂ then isTrue (by rw [h]) else isFalse (by intro hc; cases hc; exact h rfl)
  | .ok a₁, .ok a₂ =>
      if h : a₁ = a₂ then isTrue (by rw [h]) else isFalse (by intro hc; cases hc; exact h rfl)
  | .panicked, .err _ => isFalse (by intro h; cases h)
  | .panicked, .ok _ => isFalse (by intro h; cases h)
  | .err _, .panicked => isFalse (by intro h; cases h)
  | .err _, .ok _ => isFalse (by intro h; cases h)
  | .ok _, .panicked => isFalse (by intro h; cases h)
  | .ok _, .err _ => isFalse (by intro h; cases h)

/-- Whether a `Res` is a `pest` error. -/
def Res.isErr {α : Type} : Res α → Bool
  | .err _ => true
  | _ => false

/-- ASCII fragment of Rust `str::to_uppercase` on a single character,
which the `boolean_literal` lexemes (ASCII keywords) stay inside. -/
def rustCharToUppercase (c : Char) : Char :=
  if 'a' ≤ c ∧ c ≤ 'z' then Char.ofNat (c.toNat - 32) else c

/-- ASCII fragment of Rust `str::to_uppercase` (agrees with Rust on
ASCII input). -/
def rustToUppercase (s : String) : String :=
  String.mk (s.data.map rustCharToUppercase)

/-- Rust `str::starts_with` for string patterns. -/
def strStartsWith (s pre : String) : Bool :=
  s.data.take pre.data.length == pre.data

/-- `Context::read_identifier`: accept `identifier` and `enumerator`
pairs verbatim. -/
def read_identifier (scope : Scope) (pair : PTree) : Res String :=
  match pair.rule with
  | .identifier | .enumerator => .ok pair.text
  | _ => .err ⟨"Pair did not contain a valid scoped name rule", pair.pos⟩

/-- `Context::read_scoped_name`: the `absolute` bit records whether the
lexeme begins with `::`; the components are the identifier children. -/
def read_scoped_name (scope : Scope) (pair : PTree) : Res IdlScopedName := do
  let is_absolute_name := strStartsWith pair.text "::"
  let scoped_name ← pair.children.mapM (fun p => read_identifier scope p)
  pure ⟨scoped_name, is_absolute_name⟩

/-- The `fp_collect` closure of `Context::read_const_expr`: distribute
the named sub-parts of a `floating_pt_literal` over the four optional
slots; any other child rule is a `panic!`. -/
def fpCollect (acc : Option String × Option String × Option String × Option String)
    (node : PTree) : Res (Option String × Option String × Option String × Option String) :=
  match acc, node.rule with
  | (_, f, e, s), .integral_part => .ok (some node.text, f, e, s)
  | (i, _, e, s), .fractional_part => .ok (i, some node.text, e, s)
  | (i, f, _, s), .exponent => .ok (i, f, some node.text, s)
  | (i, f, e, _), .float_suffix => .ok (i, f, e, some node.text)
  | _, _ => .panicked

/-- `Context::read_const_expr`: lower any constant-expression production
into an `IdlValueExpr` (section 4.1 of the spec). -/
def read_const_expr (scope : Scope) : PTree → Res IdlValueExpr
  | .mk rule txt pos children =>
    match rule with
    | .const_expr =>
        match children with
        | expr0 :: expr1 :: _ => do
            let value_expr_0 ← read_const_expr scope expr0
            let value_expr_1 ← read_const_expr scope expr1
            pure (.Expr value_expr_0 value_expr_1)
        | [expr1] => read_const_expr scope expr1
        | [] => .err ⟨"Pair did not contain a valid const expression rule", pos⟩
    | .unary_expr =>
        match children with
        | unary_op :: prim_expr :: _ => do
            let expr ← read_const_expr scope prim_expr
            if unary_op.text = "-" then pure (.UnaryOp .Neg expr)
            else if unary_op.text = "+" then pure (.UnaryOp .Pos expr)
            else if unary_op.text = "~" then pure (.UnaryOp .Inverse expr)
            else .err ⟨unary_op.text ++ " does not match acceptable values -|+|~",
                       prim_expr.pos⟩
        | [prim_expr] => read_const_expr scope prim_expr
        | [] => .err ⟨"Rule does not match expected unary expression format", pos⟩
    | .primary_expr =>
        match children with
        | p :: _ =>
            if p.rule = .scoped_name then do
              let name ← read_scoped_name scope p
              pure (.ScopedName name)
            else if p.rule = .literal then
              read_const_expr scope p
            else if p.rule = .const_expr then do
              let expr ← read_const_expr scope p
              pure (.Brace expr)
            else
              .err ⟨"Primary expression did not match 'scoped_name', 'literal', or 'const expression'", pos⟩
        | [] =>
            .err ⟨"Primary expression did not match 'scoped_name', 'literal', or 'const expression'", pos⟩
    | .and_expr =>
        match children with
        | p :: _ => do pure (.BinaryOp .And (← read_const_expr scope p))
        | [] => .err ⟨"No associated values found with the parsed 'and expression'", pos⟩
    | .or_expr =>
        match children with
        | p :: _ => do pure (.BinaryOp .Or (← read_const_expr scope p))
        | [] => .err ⟨"No associated values found with the parsed 'or expression'", pos⟩
    | .xor_expr =>
        match children with
        | p :: _ => do pure (.BinaryOp .Xor (← read_const_expr scope p))
        | [] => .err ⟨"No associated values found with the parsed 'xor expression'", pos⟩
    | .lshift_expr =>
        match children with
        | p :: _ => do pure (.BinaryOp .LShift (← read_const_expr scope p))
        | [] => .err ⟨"No associated values found with the parsed 'left shift expression'", pos⟩
    | .rshift_expr =>
        match children with
        | p :: _ => do pure (.BinaryOp .RShift (← read_const_expr scope p))
        | [] => .err ⟨"No associated values found with the parsed 'right shift expression'", pos⟩
    | .add_expr =>
        match children with
        | p :: _ => do pure (.BinaryOp .Add (← read_const_expr scope p))
        | [] => .err ⟨"No associated values found with the parsed 'add expression'", pos⟩
    | .sub_expr =>
        match children with
        | p :: _ => do pure (.BinaryOp .Sub (← read_const_expr scope p))
        | [] => .err ⟨"No associated values found with the parsed 'sub expression'", pos⟩
    | .mul_expr =>
        match children with
        | p :: _ => do pure (.BinaryOp .Mul (← read_const_expr scope p))
        | [] => .err ⟨"No associated values found with the parsed 'multiply expression'", pos⟩
    | .div_expr =>
        match children with
        | p :: _ => do pure (.BinaryOp .Div (← read_const_expr scope p))
        | [] => .err ⟨"No associated values found with the parsed 'division expression'", pos⟩
    | .mod_expr =>
        match children with
        | p :: _ => do pure (.BinaryOp .Mod (← read_const_expr scope p))
        | [] => .err ⟨"No associated values found with the parsed 'modulo expression'", pos⟩
    | .decimal_integer_literal => .ok (.DecLiteral txt)
    | .octal_integer_literal => .ok (.OctLiteral txt)
    | .hex_integer_literal => .ok (.HexLiteral txt)
    | .floating_pt_literal => do
        let (i, f, e, s) ← children.foldlM fpCollect (none, none, none, none)
        pure (.FloatLiteral i f e s)
    | .boolean_literal => .ok (.BooleanLiteral (rustToUppercase txt == "TRUE"))
    | .character_literal => .ok (.CharLiteral txt)
    | .wide_character_literal => .ok (.WideCharLiteral txt)
    | .string_literal => .ok (.StringLiteral txt)
    | .wide_string_literal => .ok (.WideStringLiteral txt)
    | _ =>
        match children with
        | p :: _ => read_const_expr scope p
        | [] => .err ⟨"Failed to read 'const expression' in the catch all", pos⟩

/-- `Context::read_type_spec`: lower any type-specifier production into
an `IdlTypeSpec` (section 4.2 of the spec). -/
def read_type_spec (scope : Scope) : PTree → Res IdlTypeSpec
  | .mk rule txt pos children =>
    match rule with
    | .float => .ok .F32Type
    | .double => .ok .F64Type
    | .long_double => .ok .F128Type
    | .unsigned_short_int => .ok .U16Type
    | .unsigned_longlong_int => .ok .U64Type
    | .unsigned_long_int => .ok .U32Type
    | .signed_short_int => .ok .I16Type
    | .signed_longlong_int => .ok .I64Type
    | .signed_long_int => .ok .I32Type
    | .char_type => .ok .CharType
    | .wide_char_type => .ok .WideCharType
    | .boolean_type => .ok .BooleanType
    | .octet_type => .ok .OctetType
    | .string_type =>
        match children with
        | [] => .ok (.StringType none)
        | next_pair :: _ => do
            let pos_int_const ← read_const_expr scope next_pair
            pure (.StringType (some pos_int_const))
    | .wide_string_type =>
        match children with
        | [] => .ok (.WideStringType none)
        | next_pair :: _ => do
            let pos_int_const ← read_const_expr scope next_pair
            pure (.WideStringType (some pos_int_const))
    | .sequence_type =>
        match children with
        | [typ] => do
            let typ_expr ← read_type_spec scope typ
            pure (.SequenceType typ_expr)
        | typ :: bound :: _ => do
            let typ_expr ← read_type_spec scope typ
            let _bound_expr ← read_const_expr scope bound
            pure (.SequenceType typ_expr)
        | [] =>
            .err ⟨"Failed to discover required components to establish a sequence", pos⟩
    | .scoped_name => do
        let name ← read_scoped_name scope (.mk rule txt pos children)
        pure (.ScopedName name)
    | _ =>
        match children with
        | p :: _ => read_type_spec scope p
        | [] => .err ⟨"Failed find a deeper rule pair to follow", pos⟩

/-- The `fixed_array_size` mapping shared by the declarator readers:
skip the `fixed_array_size` node and lower the `const_expr` underneath
(the error message differs per call site). -/
def readFixedArraySize (scope : Scope) (errMsg : String) (errPos : Nat) (pair : PTree) :
    Res IdlValueExpr :=
  match pair.children with
  | p :: _ => read_const_expr scope p
  | [] => .err ⟨errMsg, errPos⟩

/-- `Context::read_struct_member_declarator`: a `declarator` wrapping
either a `simple_declarator` (plain field) or an `array_declarator`
(field whose type is wrapped into `ArrayType`). -/
def read_struct_member_declarator (scope : Scope) (pair : PTree) (type_spec : IdlTypeSpec) :
    Res IdlStructMember :=
  match pair.children with
  | decl :: _ =>
      match decl.rule with
      | .simple_declarator =>
          match decl.children with
          | p :: _ => do
              pure { id := (← read_identifier scope p), type_spec := type_spec }
          | [] => .err ⟨"Pair did not contain a valid IDL simple declarator", decl.pos⟩
      | .array_declarator =>
          match decl.children with
          | p :: sizes => do
              let array_sizes ← sizes.mapM
                (readFixedArraySize scope "Pair did not contain a valid 'const expression'" decl.pos)
              pure { id := (← read_identifier scope p),
                     type_spec := .ArrayType type_spec array_sizes }
          | [] => .err ⟨"Pair did not contain a valid IDL array declatator", decl.pos⟩
      | _ => .err ⟨"Pair did not contain a valid IDL type rule", decl.pos⟩
  | [] =>
      .err ⟨"Pair did not contain a either other a simple or arraty declarator", pair.pos⟩

/-- `Context::read_struct_member`: lower the member's `type_spec` once,
then one `IdlStructMember` per declarator. -/
def read_struct_member (scope : Scope) (pair : PTree) : Res (List IdlStructMember) :=
  match pair.children with
  | ts :: declarators :: _ => do
      let type_spec ← read_type_spec scope ts
      declarators.children.mapM
        (fun declarator => read_struct_member_declarator scope declarator type_spec)
  | [ts] => do
      let _ ← read_type_spec scope ts
      .err ⟨"Failed to aquire next declaration pair", pair.pos⟩
  | [] => .err ⟨"Pair did not contain a valid IDL type rule", pair.pos⟩

/-- `Context::read_switch_element_declarator`: like the struct-member
declarator but producing the single `IdlSwitchElement` of a union case. -/
def read_switch_element_declarator (scope : Scope) (pair : PTree) (type_spec : IdlTypeSpec) :
    Res IdlSwitchElement :=
  match pair.children with
  | decl :: _ =>
      match decl.rule with
      | .simple_declarator =>
          match decl.children with
          | p :: _ => do
              pure { id := (← read_identifier scope p), type_spec := type_spec }
          | [] => .err ⟨"Failed to discover simple declarator for switch element", decl.pos⟩
      | .array_declarator =>
          match decl.children with
          | p :: sizes => do
              let id ← read_identifier scope p
              let array_sizes ← sizes.mapM (fun sz =>
                readFixedArraySize scope
                  "Failed to discover const_expr under the fixed_array_size for switch element declarator"
                  sz.pos sz)
              pure { id := id, type_spec := .ArrayType type_spec array_sizes }
          | [] => .err ⟨"Failed to parse array declarator for switch element declarator", decl.pos⟩
      | _ =>
          .err ⟨"Failed to discover either simple or array declarator for switch element declarator",
                decl.pos⟩
  | [] => .err ⟨"Failed to parse switch element declarator", pair.pos⟩

/-- `Context::read_switch_element_spec`: `element_spec = type_spec ~ declarator`. -/
def read_switch_element_spec (scope : Scope) (pair : PTree) : Res IdlSwitchElement :=
  match pair.children with
  | ts :: decl :: _ => do
      let type_spec ← read_type_spec scope ts
      read_switch_element_declarator scope decl type_spec
  | [ts] => do
      let _ ← read_type_spec scope ts
      .err ⟨"Failed to read declarator from the switch element spec", pair.pos⟩
  | [] => .err ⟨"Failed to read type spec from the switch element spec", pair.pos⟩

/-- `Context::read_switch_type_spec`: unwrap to the actual type rule. -/
def read_switch_type_spec (scope : Scope) (pair : PTree) : Res IdlTypeSpec :=
  match pair.children with
  | p :: _ => read_type_spec scope p
  | [] => .err ⟨"Failed to read associated type for switch type", pair.pos⟩

/-- `Context::read_switch_label`: `case expr :` or `default :` (a label
with no child is the `default` form). -/
def read_switch_label (scope : Scope) (pair : PTree) : Res IdlSwitchLabel :=
  match pair.children with
  | p :: _ => do
      let expr ← read_const_expr scope p
      pure (.Label expr)
  | [] => .ok .Default

/-- `Context::read_switch_case`: the `case_label` children in order,
then the single `element_spec` (taking the last one; a missing
`element_spec` is an `unwrap()` on `None`, i.e. an abort). -/
def read_switch_case (scope : Scope) (pair : PTree) : Res IdlSwitchCase :=
  let case_labels := (pair.children.filter (fun p => p.rule == Rule.case_label)).mapM
    (fun p => read_switch_label scope p)
  match (pair.children.filter (fun p => p.rule == Rule.element_spec)).getLast? with
  | some es =>
      let elem_spec := read_switch_element_spec scope es
      do pure { labels := (← case_labels), elem_spec := (← elem_spec) }
  | none => .panicked

/-- `Context::read_switch_body`: one `IdlSwitchCase` per `case` child. -/
def read_switch_body (scope : Scope) (pair : PTree) : Res (List IdlSwitchCase) :=
  pair.children.mapM (fun p => read_switch_case scope p)

/-- `enum IdlError` of `lib.rs` (type parameters and payloads of the
external libraries elided down to what the embedded code inspects). -/
inductive IdlErr where
  | ParserError (e : PError)
  | FileNotFound (path : String)
  | RenderError
  | WriteError
  deriving DecidableEq, Repr

/-- Outcome of one `Context::process` call: `Ok(())`, a propagated
`Err`, a process abort, or exhaustion of the recursion fuel of the
embedding (the Rust original can recurse without bound through
`#include` chains; `fuelOut` is never silently discarded). -/
inductive Walk where
  | ok
  | err (e : IdlErr)
  | panicked
  | fuelOut
  deriving DecidableEq, Repr

/-- `Context::process_declarator`: enter a `TypeDcl` (plain or
array-wrapped) into the table under the current scope.  The returned
module is unchanged on the error paths, which mutate nothing. -/
def process_declarator (m : IdlModule) (scope : Scope) (pair : PTree)
    (type_spec : IdlTypeSpec) : IdlModule × Walk :=
  match pair.children with
  | decl :: _ =>
      match decl.rule with
      | .simple_declarator =>
          match decl.children with
          | p :: _ =>
              match read_identifier scope p with
              | .ok id =>
                  (m.add_type_dcl scope id ⟨.TypeDcl id type_spec⟩, .ok)
              | .err e => (m, .err (.ParserError e))
              | .panicked => (m, .panicked)
          | [] =>
              (m, .err (.ParserError
                ⟨"Pair did not contain a valid identifer for the simple declarator", decl.pos⟩))
      | .array_declarator =>
          match decl.children with
          | p :: sizes =>
              match read_identifier scope p with
              | .ok id =>
                  match sizes.mapM (readFixedArraySize scope
                      "Failed to read the const expr under the Rule::fixed_array_size" decl.pos) with
                  | .ok array_sizes =>
                      (m.add_type_dcl scope id ⟨.TypeDcl id (.ArrayType type_spec array_sizes)⟩, .ok)
                  | .err e => (m, .err (.ParserError e))
                  | .panicked => (m, .panicked)
              | .err e => (m, .err (.ParserError e))
              | .panicked => (m, .panicked)
          | [] =>
              (m, .err (.ParserError
                ⟨"Pair did not contain a valid identifer for the simple declarator", decl.pos⟩))
      | _ =>
          (m, .err (.ParserError
            ⟨"Pair did not contain a valid simple or array declarator", decl.pos⟩))
  | [] =>
      (m, .err (.ParserError
        ⟨"No associated values found with the parsed array|simple declarator", pair.pos⟩))

/-- Lift a `Res` step inside `process` (`?` on a `pest` result: the
`From` impl wraps it into `IdlError::ParserError`). -/
def Walk.ofRes {α : Type} (r : Res α) (k : α → IdlModule × Walk) (m : IdlModule) :
    IdlModule × Walk :=
  match r with
  | .ok a => k a
  | .err e => (m, .err (.ParserError e))
  | .panicked => (m, .panicked)

/-- The `for p in any_declarators { let _ = self.process_declarator(...) }`
loop of the `type_declarator` arm. -/
def declaratorSwallow (m : IdlModule) (scope : Scope) :
    List PTree → IdlTypeSpec → IdlModule × Walk
  | [], _ => (m, .ok)
  | t :: ts, type_spec =>
      let (m', w) := process_declarator m scope t type_spec
      match w with
      | .panicked => (m', .panicked)
      | _ => declaratorSwallow m' scope ts type_spec

/-- A `for p in iter { let _ = step(...) }` loop over pairs: errors are
discarded, aborts (and fuel exhaustion) stop everything.  `step` is the
recursive `process` call at the remaining fuel. -/
def swallowWith (step : IdlModule → Scope → PTree → IdlModule × Walk) :
    IdlModule → Scope → List PTree → IdlModule × Walk
  | m, _, [] => (m, .ok)
  | m, scope, t :: ts =>
      let (m', w) := step m scope t
      match w with
      | .panicked => (m', .panicked)
      | .fuelOut => (m', .fuelOut)
      | _ => swallowWith step m' scope ts

/-- The `for p in idl { step(...)?; }` loop of the `include_directive`
arm: the first error stops the loop and propagates. -/
def strictWith (step : IdlModule → Scope → PTree → IdlModule × Walk) :
    IdlModule → Scope → List PTree → IdlModule × Walk
  | m, _, [] => (m, .ok)
  | m, scope, t :: ts =>
      let (m', w) := step m scope t
      match w with
      | .ok => strictWith step m' scope ts
      | w => (m', w)

/-- `Context::process`: the declaration walker (section 4.3 of the
spec).  `loader` and `parseFn` are the external loader and parser; the
first `Nat` is the recursion fuel of the embedding, spent one unit per
tree level and per `#include` expansion. -/
def process (loader : String → Option String) (parseFn : String → Except PError (List PTree)) :
    Nat → IdlModule → Scope → PTree → IdlModule × Walk
  | 0, m, _, _ => (m, .fuelOut)
  | Nat.succ fuel, m, scope, .mk rule txt pos children =>
    match rule with
    | .module_dcl =>
        match children with
        | [] => (m, .panicked)
        | id_pair :: rest =>
            let id := id_pair.text
            let scope' := scope ++ [id]
            let m := m.lookupModule scope'
            let (m, w) := swallowWith (process loader parseFn fuel) m scope' rest
            match w with
            | .panicked => (m, .panicked)
            | .fuelOut => (m, .fuelOut)
            | _ => (m, .ok)
    | .struct_def =>
        match children with
        | [] => (m, .panicked)
        | id_pair :: rest =>
            let id := id_pair.text
            Walk.ofRes (rest.mapM (fun p => read_struct_member scope p))
              (fun m2 =>
                let members := m2.flatten
                (m.add_type_dcl scope id ⟨.StructDcl id members⟩, .ok)) m
    | .union_def =>
        match children with
        | [] => (m, .panicked)
        | c0 :: rest0 =>
            Walk.ofRes (read_identifier scope c0) (fun id =>
              match rest0 with
              | [] => (m, .panicked)
              | c1 :: rest1 =>
                  Walk.ofRes (read_switch_type_spec scope c1) (fun switch_type_spec =>
                    match rest1 with
                    | [] => (m, .panicked)
                    | c2 :: _ =>
                        Walk.ofRes (read_switch_body scope c2) (fun switch_body =>
                          (m.add_type_dcl scope id
                            ⟨.UnionDcl id switch_type_spec switch_body⟩, .ok)) m) m) m
    | .type_declarator =>
        match children with
        | [] => (m, .panicked)
        | c0 :: rest =>
            Walk.ofRes (read_type_spec scope c0) (fun type_spec =>
              match rest with
              | [] => (m, .panicked)
              | anyd :: _ =>
                  let (m, w) := declaratorSwallow m scope anyd.children type_spec
                  match w with
                  | .panicked => (m, .panicked)
                  | _ => (m, .ok)) m
    | .enum_dcl =>
        match children with
        | [] => (m, .panicked)
        | id_pair :: rest =>
            let id := id_pair.text
            Walk.ofRes (rest.mapM (fun p => read_identifier scope p))
              (fun enums => (m.add_type_dcl scope id ⟨.EnumDcl id enums⟩, .ok)) m
    | .const_dcl =>
        match children with
        | [] => (m, .panicked)
        | c0 :: rest0 =>
            Walk.ofRes (read_type_spec scope c0) (fun type_spec =>
              match rest0 with
              | [] => (m, .panicked)
              | c1 :: rest1 =>
                  Walk.ofRes (read_identifier scope c1) (fun id =>
                    match rest1 with
                    | [] => (m, .panicked)
                    | c2 :: _ =>
                        Walk.ofRes (read_const_expr scope c2) (fun const_expr =>
                          (m.add_const_dcl scope id
                            ⟨id, type_spec, const_expr⟩, .ok)) m) m) m
    | .include_directive =>
        match children with
        | [] => (m, .ok)
        | p :: _ =>
            let fname := p.text
            match loader fname with
            | none => (m, .err (.FileNotFound fname))
            | some data =>
                match parseFn data with
                | .error e => (m, .err (.ParserError e))
                | .ok idl =>
                    let (m, w) := strictWith (process loader parseFn fuel) m scope idl
                    match w with
                    | .err e => (m, .err e)
                    | .panicked => (m, .panicked)
                    | .fuelOut => (m, .fuelOut)
                    | .ok => (m, .ok)
    | _ =>
        let (m, w) := swallowWith (process loader parseFn fuel) m scope children
        match w with
        | .panicked => (m, .panicked)
        | .fuelOut => (m, .fuelOut)
        | _ => (m, .ok)


/-- Result of `generate_with_loader`: the generated text, an
`IdlError`, an abort, or fuel exhaustion of the embedding. -/
inductive GenResult where
  | ok (out : String)
  | err (e : IdlErr)
  | panicked
  | fuelOut
  deriving DecidableEq, Repr

/-- `generate_with_loader`: load the root IDL file (`FileNotFound` when
the loader fails), parse it, feed every top-level pair to the walker
with errors discarded, render the root module at level 0, and hand the
text to the sink (the sink is modelled as always accepting, so
`WriteError` does not arise in the embedding). -/
def generate_with_loader (loader : String → Option String)
    (parseFn : String → Except PError (List PTree)) (tmpl : Tmpl) (fuel : Nat)
    (idl_file : String) : GenResult :=
  match loader idl_file with
  | none => .err (.FileNotFound idl_file)
  | some idl_file_data =>
      match parseFn idl_file_data with
      | .error e => .err (.ParserError e)
      | .ok idl =>
          let (root_module, w) :=
            swallowWith (process loader parseFn fuel) (IdlModule.new none) [] idl
          match w with
          | .panicked => .panicked
          | .fuelOut => .fuelOut
          | _ =>
              match root_module.render tmpl 0 with
              | none => .err .RenderError
              | some root_module_text => .ok root_module_text

/-! ## Claim-side helpers and concrete runs used by the claims -/

/-- Components joined by the `::` separator — the claim's reading of
"the components joined by `::`". -/
def joinedByColonColon : List String → String
  | [] => ""
  | [c] => c
  | c :: rest => c ++ "::" ++ joinedByColonColon rest

/-- Tail of a joined scoped name: every component preceded by `::`. -/
def joinedTail : List String → String
  | [] => ""
  | x :: xs => "::" ++ x ++ joinedTail xs

/-- Root IDL text of the C1 run: a single include of a file the loader
cannot produce. -/
def c1RootText : String := "#include \x22missing.idl\x22\n"

/-- The `include_directive` pair of the C1 run, with the `path_spec`
child naming the missing file. -/
def c1IncludeTree : PTree :=
  .mk .include_directive "#include \x22missing.idl\x22" 0 [.mk .path_spec "missing.idl" 10 []]

/-- The parse tree of the C1 root file: a `specification` wrapping a
`definition` wrapping the include directive. -/
def c1SpecTree : PTree :=
  .mk .specification c1RootText 0
    [.mk .definition "#include \x22missing.idl\x22" 0 [c1IncludeTree]]

/-- The C1 loader: produces the root file only; every include fails. -/
def c1Loader : String → Option String :=
  fun p => if p = "root.idl" then some c1RootText else none

/-- The C1 parser: parses the root text to `c1SpecTree`. -/
def c1ParseFn : String → Except PError (List PTree) :=
  fun s => if s = c1RootText then .ok [c1SpecTree] else .error ⟨"parse failure", 0⟩

/-- A malformed bound node for the C4 run: a rule with no children, on
which the expression lowerer's catch-all fails. -/
def c4BadBound : PTree := .mk .other "@" 16 []

/-- A `string_type` pair carrying the malformed bound. -/
def c4StringType : PTree := .mk .string_type "string<@>" 8 [c4BadBound]

/-- The `any_declarators` pair of the C4 typedef. -/
def c4AnyDecls : PTree :=
  .mk .any_declarators "X" 19
    [.mk .declarator "X" 19 [.mk .simple_declarator "X" 19 [.mk .identifier "X" 19 []]]]

/-- Root IDL text of the C4 run: a typedef of a bounded string whose
bound does not lower. -/
def c4RootText : String := "typedef string<@> X;\n"

/-- The parse tree of the C4 root file. -/
def c4SpecTree : PTree :=
  .mk .specification c4RootText 0
    [.mk .definition "typedef string<@> X;" 0
      [.mk .type_declarator "typedef string<@> X" 0 [c4StringType, c4AnyDecls]]]

/-- The C4 loader. -/
def c4Loader : String → Option String :=
  fun p => if p = "root.idl" then some c4RootText else none

/-- The C4 parser. -/
def c4ParseFn : String → Except PError (List PTree) :=
  fun s => if s = c4RootText then .ok [c4SpecTree] else .error ⟨"parse failure", 0⟩

/-! ## Claim C2: lowering of `boolean_literal` -/

/-- C2, counterexample: the claim says every lexeme other than the
uppercase string `TRUE` (including lowercase `true`) lowers to
`BooleanLiteral(false)`; the code first uppercases the lexeme, so the
lexeme `true` lowers to `BooleanLiteral(true)`. -/
theorem C2_counterexample :
    read_const_expr [] (.mk .boolean_literal "true" 0 []) = .ok (.BooleanLiteral true) ∧
    ("true" : String) ≠ "TRUE" := by
  exact ⟨rfl, by decide⟩

/-- C2, amended: for every `boolean_literal` parse node, lowering yields
`BooleanLiteral(true)` exactly when the lexeme uppercased equals `TRUE`
(a case-insensitive comparison), and `BooleanLiteral(false)` otherwise. -/
theorem C2_amended (scope : Scope) (s : String) (pos : Nat) (children : List PTree) :
    read_const_expr scope (.mk .boolean_literal s pos children) =
      .ok (.BooleanLiteral (rustToUppercase s == "TRUE")) := rfl

/-! ## Claim C6: rendering of array types -/

/-- C6: an `ArrayType` with a non-empty dimension list renders as one
opening bracket per dimension, then the element type, then `;<dim>]`
for each dimension in order — e.g. `[a,b,c]` gives `[[[T;a];b];c]`. -/
theorem C6_array_render (elem : IdlTypeSpec) (dims : List IdlValueExpr) (s : String)
    (ds : List String) (hdims : dims ≠ [])
    (helem : elem.render = some s) (hds : dims.mapM IdlValueExpr.render = some ds) :
    IdlTypeSpec.render (.ArrayType elem dims) =
      some (strRepeat "[" dims.length ++ s
        ++ String.join (ds.map (fun d => ";" ++ d ++ "]"))) := by
  simp only [IdlTypeSpec.render]
  rw [hds, helem]
  rfl

/-- C6, witness: three dimensions `a`, `b`, `c` over `long` render as
`[[[i32;a];b];c]`. -/
theorem C6_array_render_witness :
    IdlTypeSpec.render
        (.ArrayType .I32Type [.DecLiteral "a", .DecLiteral "b", .DecLiteral "c"]) =
      some (strRepeat "[" ([IdlValueExpr.DecLiteral "a", .DecLiteral "b", .DecLiteral "c"]).length
        ++ "i32" ++ String.join (["a", "b", "c"].map (fun d => ";" ++ d ++ "]"))) := by
  exact C6_array_render .I32Type [.DecLiteral "a", .DecLiteral "b", .DecLiteral "c"]
    "i32" ["a", "b", "c"] (by simp) rfl rfl

/-! ## Claim C9: rendering of `FloatLiteral` -/

/-- C9, counterexample: the claim says rendering a `FloatLiteral` with a
missing exponent or suffix still totally evaluates and produces
(malformed) output; in fact the rendering calls `unwrap()` on the
missing part and aborts (modelled as `none`). -/
theorem C9_counterexample :
    IdlValueExpr.render (.FloatLiteral (some "1") (some "5") none none) = none := rfl

/-- C9, amended: rendering a `FloatLiteral` produces
`<integral>.<fractional>e<exponent><suffix>` when all four parts are
present, and aborts the process (no output at all) when any part is
missing. -/
theorem C9_amended :
    (∀ i f e s : String,
      IdlValueExpr.render (.FloatLiteral (some i) (some f) (some e) (some s)) =
        some (i ++ "." ++ f ++ "e" ++ e ++ s)) ∧
    (∀ i f e s : Option String, (i = none ∨ f = none ∨ e = none ∨ s = none) →
      IdlValueExpr.render (.FloatLiteral i f e s) = none) := by
  constructor
  · intro i f e s; rfl
  · intro i f e s h
    cases i <;> cases f <;> cases e <;> cases s <;> first | rfl | simp_all

/-- C9, witness for the amended claim at `1.5e3f` and at a literal with
a missing integral part. -/
theorem C9_amended_witness :
    IdlValueExpr.render (.FloatLiteral (some "1") (some "5") (some "3") (some "f")) =
      some ("1" ++ "." ++ "5" ++ "e" ++ "3" ++ "f") ∧
    IdlValueExpr.render (.FloatLiteral none (some "5") (some "3") (some "f")) = none :=
  ⟨C9_amended.1 "1" "5" "3" "f",
   C9_amended.2 none (some "5") (some "3") (some "f") (Or.inl rfl)⟩

/-! ## Claim C7: scoped-name rendering and the `absolute` bit -/

theorem joinedByColonColon_cons : ∀ (rest : List String) (c : String),
    joinedByColonColon (c :: rest) = c ++ joinedTail rest := by
  intro rest
  induction rest with
  | nil => intro c; simp [joinedByColonColon, joinedTail, String.append_empty]
  | cons x xs ih =>
      intro c
      simp [joinedByColonColon, joinedTail, ih x, String.append_assoc]

theorem scopedName_fold_tail (abs : Bool) (rest : List String) : ∀ (n : Nat) (acc : String),
    ((List.enumFrom (n + 1) rest).map (fun p =>
        if p.1 = 0 ∧ ¬ abs then p.2
        else if p.1 = 0 ∧ abs then "crate::" ++ p.2
        else "::" ++ p.2)).foldl (· ++ ·) acc = acc ++ joinedTail rest := by
  induction rest with
  | nil => intro n acc; simp [joinedTail, String.append_empty]
  | cons x xs ih =>
      intro n acc
      simp only [List.enumFrom_cons, List.map_cons, List.foldl_cons]
      rw [if_neg (by simp), if_neg (by simp)]
      rw [ih (n + 1)]
      simp [joinedTail, String.append_assoc]

theorem scopedName_render_cons (c : String) (rest : List String) (abs : Bool) :
    IdlScopedName.render ⟨c :: rest, abs⟩ =
      (if abs then "crate::" ++ c else c) ++ joinedTail rest := by
  unfold IdlScopedName.render
  rw [List.enum_cons]
  simp only [List.map_cons, List.foldl_cons]
  cases abs with
  | false =>
      rw [if_pos (by simp)]
      rw [show ("" ++ c) = c from String.empty_append c]
      exact scopedName_fold_tail false rest 0 c
  | true =>
      rw [if_neg (by simp), if_pos (by simp)]
      rw [show ("" ++ ("crate::" ++ c)) = "crate::" ++ c from String.empty_append _]
      simpa using scopedName_fold_tail true rest 0 ("crate::" ++ c)

/-- C7: rendering a scoped name with a non-empty component list joins
the components with `::`, prefixing `crate::` exactly when the
`absolute` bit is set; and `read_scoped_name` sets the `absolute` bit
exactly when the source lexeme begins with `::`. -/
theorem C7_scoped_name :
    (∀ (comps : List String) (abs : Bool), comps ≠ [] →
      IdlScopedName.render ⟨comps, abs⟩ =
        (if abs then "crate::" else "") ++ joinedByColonColon comps) ∧
    (∀ (scope : Scope) (pair : PTree) (n : IdlScopedName),
      read_scoped_name scope pair = .ok n → n.absolute = strStartsWith pair.text "::") := by
  constructor
  · intro comps abs hne
    match comps with
    | [] => exact absurd rfl hne
    | c :: rest =>
        rw [scopedName_render_cons, joinedByColonColon_cons]
        cases abs with
        | false => simp [String.empty_append, String.append_assoc]
        | true => simp [String.append_assoc]
  · intro scope pair n h
    unfold read_scoped_name at h
    cases hm : pair.children.mapM (fun p => read_identifier scope p) with
    | panicked => rw [hm] at h; exact absurd h (by simp [Bind.bind])
    | err e => rw [hm] at h; exact absurd h (by simp [Bind.bind])
    | ok l =>
        rw [hm] at h
        have : Res.ok (⟨l, strStartsWith pair.text "::"⟩ : IdlScopedName) = .ok n := h
        cases this
        rfl

/-- C7, witness: `crate::A::B` for an absolute two-component name, and
the `absolute` bit of the lowering of a pair whose lexeme is `::A::B`. -/
theorem C7_scoped_name_witness :
    IdlScopedName.render ⟨["A", "B"], true⟩ =
      (if true then "crate::" else "") ++ joinedByColonColon ["A", "B"] ∧
    (⟨["A", "B"], true⟩ : IdlScopedName).absolute = strStartsWith "::A::B" "::" := by
  refine ⟨C7_scoped_name.1 ["A", "B"] true (by simp), ?_⟩
  have h := C7_scoped_name.2 []
    (.mk .scoped_name "::A::B" 0 [.mk .identifier "A" 2 [], .mk .identifier "B" 5 []])
    ⟨["A", "B"], true⟩ rfl
  simpa using h

/-! ## Claim C5: first-declaration-wins -/

theorem lhmGet_lhmSet {α : Type} (k : String) (v : α) :
    ∀ l : List (String × α), lhmGet (lhmSet l k v) k = some v := by
  intro l
  induction l with
  | nil => simp [lhmSet, lhmGet]
  | cons p rest ih =>
      by_cases h : p.1 == k
      · simp [lhmSet, h, lhmGet]
      · simp only [lhmSet, h]
        simp only [Bool.false_eq_true, if_false]
        simp [lhmGet, h, ih]

theorem lhmSet_lhmSet {α : Type} (k : String) (v w : α) :
    ∀ l : List (String × α), lhmSet (lhmSet l k v) k w = lhmSet l k w := by
  intro l
  induction l with
  | nil => simp [lhmSet]
  | cons p rest ih =>
      by_cases h : p.1 == k
      · simp [lhmSet, h]
      · simp only [lhmSet, h]
        simp only [Bool.false_eq_true, if_false]
        simp [lhmSet, h, ih]

theorem updateAt_updateAt : ∀ (s : List String) (m : IdlModule) (f g : IdlModule → IdlModule),
    (m.updateAt s f).updateAt s g = m.updateAt s (fun x => g (f x)) := by
  intro s
  induction s with
  | nil => intro m f g; simp [IdlModule.updateAt]
  | cons name rest ih =>
      intro m f g
      cases m with
      | mk id uses modules types constants =>
          simp only [IdlModule.updateAt, lhmGet_lhmSet, lhmSet_lhmSet, ih]

theorem lhmContains_entryOrInsert {α : Type} (l : List (String × α)) (k : String) (v : α) :
    lhmContains (lhmEntryOrInsert l k v) k = true := by
  unfold lhmEntryOrInsert
  by_cases h : lhmContains l k
  · simp [h]
  · simp only [h, if_false, Bool.false_eq_true]
    simp [lhmContains, List.any_append]

theorem entryOrInsert_entryOrInsert {α : Type} (l : List (String × α)) (k : String) (v w : α) :
    lhmEntryOrInsert (lhmEntryOrInsert l k v) k w = lhmEntryOrInsert l k v := by
  by_cases hx : lhmContains l k
  · have h1 : lhmEntryOrInsert l k v = l := by simp [lhmEntryOrInsert, hx]
    rw [h1]
    simp [lhmEntryOrInsert, hx]
  · have h1 : lhmEntryOrInsert l k v = l ++ [(k, v)] := by simp [lhmEntryOrInsert, hx]
    rw [h1]
    have h2 : lhmContains (l ++ [(k, v)]) k = true := by
      simp [lhmContains, List.any_append]
    simp [lhmEntryOrInsert, h2]

/-- C5: declaring the same identifier twice in the same scope keeps the
first declaration and silently drops the second, for types and for
constants alike (`entry(key).or_insert` inserts only when absent). -/
theorem C5_first_declaration_wins (m : IdlModule) (scope : List String) (key : String)
    (d1 d2 : IdlTypeDcl) (c1 c2 : IdlConstDcl) :
    (m.add_type_dcl scope key d1).add_type_dcl scope key d2 = m.add_type_dcl scope key d1 ∧
    (m.add_const_dcl scope key c1).add_const_dcl scope key c2 = m.add_const_dcl scope key c1 := by
  constructor
  · unfold IdlModule.add_type_dcl
    rw [updateAt_updateAt]
    have hfg : (fun x : IdlModule =>
        (x.withTypes (lhmEntryOrInsert x.types key d1)).withTypes
          (lhmEntryOrInsert (x.withTypes (lhmEntryOrInsert x.types key d1)).types key d2)) =
        (fun leaf : IdlModule => leaf.withTypes (lhmEntryOrInsert leaf.types key d1)) := by
      funext leaf
      cases leaf with
      | mk id uses modules types constants =>
          simp [IdlModule.withTypes, IdlModule.types, IdlModule.id, IdlModule.uses,
            IdlModule.modules, IdlModule.constants, entryOrInsert_entryOrInsert]
    rw [hfg]
  · unfold IdlModule.add_const_dcl
    rw [updateAt_updateAt]
    have hfg : (fun x : IdlModule =>
        (x.withConstants (lhmEntryOrInsert x.constants key c1)).withConstants
          (lhmEntryOrInsert (x.withConstants (lhmEntryOrInsert x.constants key c1)).constants
            key c2)) =
        (fun leaf : IdlModule => leaf.withConstants (lhmEntryOrInsert leaf.constants key c1)) := by
      funext leaf
      cases leaf with
      | mk id uses modules types constants =>
          simp [IdlModule.withConstants, IdlModule.types, IdlModule.id, IdlModule.uses,
            IdlModule.modules, IdlModule.constants, entryOrInsert_entryOrInsert]
    rw [hfg]

/-! ## Shared rendering lemmas for the module renderer (claims C3, C8) -/

theorem strStartsWith_append (a b : String) : strStartsWith (a ++ b) a = true := by
  simp [strStartsWith, String.data_append, List.take_left]

theorem strStartsWith_of_eq (s a r : String) (h : s = a ++ r) : strStartsWith s a = true := by
  rw [h]; exact strStartsWith_append a r

theorem String_join_cons (a : String) (l : List String) :
    String.join (a :: l) = a ++ String.join l := by
  apply String.ext
  simp [String.data_join, String.data_append]

/-- `IdlModule::render` wraps the accumulated `module_info` in the
`module.j2` template exactly when `id` is present; the root returns the
bare block. -/
theorem render_eq_moduleInfo (tmpl : Tmpl) (m : IdlModule) (level : Nat) :
    IdlModule.render tmpl m level =
      (match m.id with
       | some i => (IdlModule.moduleInfo tmpl m level).bind
           (fun body => tmpl "module.j2" (.moduleCtx i body level))
       | none => IdlModule.moduleInfo tmpl m level) := by
  cases m with
  | mk id uses modules types constants =>
      cases hinfo : IdlModule.moduleInfo tmpl (.mk id uses modules types constants) level with
      | none => cases id <;> simp [IdlModule.render, IdlModule.id, hinfo]
      | some info => cases id <;> simp [IdlModule.render, IdlModule.id, hinfo]

theorem renderTypes_eq (tmpl : Tmpl) (lvl : Nat) : ∀ ts : List (String × IdlTypeDcl),
    IdlModule.renderTypes tmpl ts lvl =
      (ts.mapM (fun t => IdlTypeDcl.render tmpl t.2 lvl)).map
        (fun l => String.join (l.map (· ++ "\n"))) := by
  intro ts
  rw [← List.mapM'_eq_mapM]
  induction ts with
  | nil => simp [IdlModule.renderTypes, List.mapM'_nil]; rfl
  | cons t rest ih =>
      cases hr : IdlTypeDcl.render tmpl t.2 lvl with
      | none => simp [IdlModule.renderTypes, hr, List.mapM'_cons]
      | some s =>
          cases hm : List.mapM' (fun t => IdlTypeDcl.render tmpl t.2 lvl) rest with
          | none => simp [IdlModule.renderTypes, hr, List.mapM'_cons, hm, ih]
          | some l =>
              simp [IdlModule.renderTypes, hr, List.mapM'_cons, hm, ih, String_join_cons,
                String.append_assoc]

theorem renderModules_eq (tmpl : Tmpl) (lvl : Nat) : ∀ ms : List (String × IdlModule),
    IdlModule.renderModules tmpl ms lvl =
      (ms.mapM (fun p => IdlModule.render tmpl p.2 lvl)).map
        (fun l => String.join (l.map (· ++ "\n"))) := by
  intro ms
  rw [← List.mapM'_eq_mapM]
  induction ms with
  | nil => simp [IdlModule.renderModules, List.mapM'_nil]; rfl
  | cons p rest ih =>
      rw [IdlModule.renderModules]
      cases hr : IdlModule.render tmpl p.2 lvl with
      | none => simp [hr, List.mapM'_cons]
      | some s =>
          cases hm : List.mapM' (fun p => IdlModule.render tmpl p.2 lvl) rest with
          | none => simp [hr, List.mapM'_cons, hm, ih]
          | some l =>
              simp [hr, List.mapM'_cons, hm, ih, String_join_cons,
                String.append_assoc]

theorem renderConstants_eq (tmpl : Tmpl) (lvl : Nat) : ∀ cs : List (String × IdlConstDcl),
    IdlModule.renderConstants tmpl cs lvl =
      (cs.mapM (fun c => IdlConstDcl.render tmpl c.2 lvl)).map
        (fun l => String.join (l.map (· ++ "\n"))) := by
  intro cs
  rw [← List.mapM'_eq_mapM]
  induction cs with
  | nil => simp [IdlModule.renderConstants, List.mapM'_nil]; rfl
  | cons c rest ih =>
      cases hr : IdlConstDcl.render tmpl c.2 lvl with
      | none => simp [IdlModule.renderConstants, hr, List.mapM'_cons]
      | some s =>
          cases hm : List.mapM' (fun c => IdlConstDcl.render tmpl c.2 lvl) rest with
          | none => simp [IdlModule.renderConstants, hr, List.mapM'_cons, hm, ih]
          | some l =>
              simp [IdlModule.renderConstants, hr, List.mapM'_cons, hm, ih, String_join_cons,
                String.append_assoc]

/-- The `module_info` block equals: the `uses` blocks, the vec and
serde import blocks at `(level + add) * INDENTION`, then the rendered types,
sub-modules and constants in that order (each entry followed by a
newline), with `add = 1` for a named module and `0` for the root. -/
theorem moduleInfo_eq (tmpl : Tmpl) (m : IdlModule) (level : Nat) :
    IdlModule.moduleInfo tmpl m level =
      (let add := if m.id.isSome then 1 else 0
       do
        let ts ← m.types.mapM (fun t => IdlTypeDcl.render tmpl t.2 (level + add))
        let ms ← m.modules.mapM (fun p => IdlModule.render tmpl p.2 (level + add))
        let cs ← m.constants.mapM (fun c => IdlConstDcl.render tmpl c.2 (level + add))
        pure (usesBlock m.uses level
          ++ importBlock ((level + add) * INDENTION) IMPORT_VEC
          ++ importBlock ((level + add) * INDENTION) IMPORT_SERDE
          ++ String.join (ts.map (· ++ "\n"))
          ++ String.join (ms.map (· ++ "\n"))
          ++ String.join (cs.map (· ++ "\n")))) := by
  cases m with
  | mk id uses modules types constants =>
      simp only [IdlModule.moduleInfo, IdlModule.id, IdlModule.uses, IdlModule.modules,
        IdlModule.types, IdlModule.constants]
      rw [renderTypes_eq, renderModules_eq, renderConstants_eq]
      cases hts : types.mapM (fun t =>
          IdlTypeDcl.render tmpl t.2 (level + if id.isSome then 1 else 0)) with
      | none => simp [hts]
      | some ts' =>
          cases hms : modules.mapM (fun p =>
              IdlModule.render tmpl p.2 (level + if id.isSome then 1 else 0)) with
          | none => simp [hts, hms]
          | some ms' =>
              cases hcs : constants.mapM (fun c =>
                  IdlConstDcl.render tmpl c.2 (level + if id.isSome then 1 else 0)) with
              | none => simp [hts, hms, hcs]
              | some cs' => simp [hts, hms, hcs, String.append_assoc]

/-! ## Claim C3: import emission -/

theorem usesBlock_nil (level : Nat) : usesBlock [] level = "" := rfl

/-- C3, counterexample: the claim says the root module's output contains
no import lines; rendering the empty root module in fact produces
exactly the two import blocks (as the shipped `enum_variants` test
vector also shows). -/
theorem C3_counterexample :
    IdlModule.render (fun _ _ => none) (IdlModule.new none) 0 =
      some (importBlock 0 IMPORT_VEC ++ importBlock 0 IMPORT_SERDE) ∧
    strStartsWith (importBlock 0 IMPORT_VEC ++ importBlock 0 IMPORT_SERDE)
      (spaces 0 ++ ATTR_ALLOW_UNUSED_IMPORTS ++ "\n" ++ spaces 0 ++ IMPORT_VEC ++ "\n") = true := by
  constructor
  · simp [IdlModule.render, IdlModule.moduleInfo, IdlModule.renderTypes, IdlModule.renderModules,
      IdlModule.renderConstants, IdlModule.new, usesBlock, String.join]
  · exact strStartsWith_append _ _

/-- C3, amended: every module block — the root included — begins with
the two import blocks (each an attribute line plus the `use` line),
indented by `(level + add) * INDENTION`; the non-root block is then
wrapped in the module template while the root is emitted bare. -/
theorem C3_amended (tmpl : Tmpl) (m : IdlModule) (level : Nat) (info : String)
    (hu : m.uses = []) (hi : IdlModule.moduleInfo tmpl m level = some info) :
    strStartsWith info
      (importBlock ((level + (if m.id.isSome then 1 else 0)) * INDENTION) IMPORT_VEC ++
       importBlock ((level + (if m.id.isSome then 1 else 0)) * INDENTION) IMPORT_SERDE) = true ∧
    IdlModule.render tmpl m level =
      (match m.id with
       | some i => (IdlModule.moduleInfo tmpl m level).bind
           (fun body => tmpl "module.j2" (.moduleCtx i body level))
       | none => IdlModule.moduleInfo tmpl m level) := by
  refine ⟨?_, render_eq_moduleInfo tmpl m level⟩
  have he := moduleInfo_eq tmpl m level
  rw [hi] at he
  cases m with
  | mk id uses modules types constants =>
      simp only [IdlModule.id, IdlModule.uses, IdlModule.modules, IdlModule.types,
        IdlModule.constants] at he hu ⊢
      subst hu
      cases hts : types.mapM (fun t =>
          IdlTypeDcl.render tmpl t.2 (level + if id.isSome then 1 else 0)) with
      | none => rw [hts] at he; simp at he
      | some ts' =>
          cases hms : modules.mapM (fun p =>
              IdlModule.render tmpl p.2 (level + if id.isSome then 1 else 0)) with
          | none => rw [hts, hms] at he; simp at he
          | some ms' =>
              cases hcs : constants.mapM (fun c =>
                  IdlConstDcl.render tmpl c.2 (level + if id.isSome then 1 else 0)) with
              | none => rw [hts, hms, hcs] at he; simp at he
              | some cs' =>
                  rw [hts, hms, hcs] at he
                  simp at he
                  refine strStartsWith_of_eq _ _
                    (String.join (ts'.map (· ++ "\n")) ++ (String.join (ms'.map (· ++ "\n"))
                      ++ String.join (cs'.map (· ++ "\n")))) ?_
                  rw [he]
                  simp [usesBlock_nil, String.empty_append, String.append_assoc]

/-- C3, amended claim witness: the empty root module at level 0. -/
theorem C3_amended_witness :
    strStartsWith (importBlock 0 IMPORT_VEC ++ importBlock 0 IMPORT_SERDE)
      (importBlock ((0 + (if (IdlModule.new none).id.isSome then 1 else 0)) * INDENTION)
          IMPORT_VEC ++
        importBlock ((0 + (if (IdlModule.new none).id.isSome then 1 else 0)) * INDENTION)
          IMPORT_SERDE) = true ∧
    IdlModule.render (fun _ _ => none) (IdlModule.new none) 0 =
      (match (IdlModule.new none).id with
       | some i => (IdlModule.moduleInfo (fun _ _ => none) (IdlModule.new none) 0).bind
           (fun body => (fun _ _ => none : Tmpl) "module.j2" (.moduleCtx i body 0))
       | none => IdlModule.moduleInfo (fun _ _ => none) (IdlModule.new none) 0) := by
  refine C3_amended (fun _ _ => none) (IdlModule.new none) 0
    (importBlock 0 IMPORT_VEC ++ importBlock 0 IMPORT_SERDE) rfl ?_
  simp [IdlModule.moduleInfo, IdlModule.renderTypes, IdlModule.renderModules,
    IdlModule.renderConstants, IdlModule.new, usesBlock, String.join]

/-! ## Claim C8: module rendering order, template wrapping and levels -/

/-- C8: a module renders its types, then its sub-modules, then its
constants (each in insertion order, each followed by a newline), after
the `uses` and import blocks; the block is passed through the `module.j2`
template exactly when the module's `id` is present; children are
rendered at `level + 1` for a named module and `level + 0` for the root. -/
theorem C8_module_render_order (tmpl : Tmpl) (m : IdlModule) (level : Nat) :
    IdlModule.render tmpl m level =
      (match m.id with
       | some i => (IdlModule.moduleInfo tmpl m level).bind
           (fun body => tmpl "module.j2" (.moduleCtx i body level))
       | none => IdlModule.moduleInfo tmpl m level) ∧
    IdlModule.moduleInfo tmpl m level =
      (let add := if m.id.isSome then 1 else 0
       do
        let ts ← m.types.mapM (fun t => IdlTypeDcl.render tmpl t.2 (level + add))
        let ms ← m.modules.mapM (fun p => IdlModule.render tmpl p.2 (level + add))
        let cs ← m.constants.mapM (fun c => IdlConstDcl.render tmpl c.2 (level + add))
        pure (usesBlock m.uses level
          ++ importBlock ((level + add) * INDENTION) IMPORT_VEC
          ++ importBlock ((level + add) * INDENTION) IMPORT_SERDE
          ++ String.join (ts.map (· ++ "\n"))
          ++ String.join (ms.map (· ++ "\n"))
          ++ String.join (cs.map (· ++ "\n")))) :=
  ⟨render_eq_moduleInfo tmpl m level, moduleInfo_eq tmpl m level⟩

/-! ## Claim C1: missing include files

The walker's `include_directive` arm does return `FileNotFound`, but
every caller of `process` discards walker errors (`let _ = ...`), so the
error never reaches `generate_with_loader`'s result and generation
succeeds.  The concrete run below exhibits this. -/

/-- C1, counterexample: the loader cannot produce `missing.idl`, the
walker raises `FileNotFound` at the directive, yet generation succeeds
(all callers discard the walker's error), emitting the root's import
blocks instead of failing. -/
theorem C1_counterexample :
    c1Loader "missing.idl" = none ∧
    process c1Loader c1ParseFn 9 (IdlModule.new none) [] c1IncludeTree =
      (IdlModule.new none, .err (.FileNotFound "missing.idl")) ∧
    generate_with_loader c1Loader c1ParseFn (fun _ _ => none) 10 "root.idl" =
      .ok (importBlock 0 IMPORT_VEC ++ importBlock 0 IMPORT_SERDE) := by
  refine ⟨rfl, rfl, ?_⟩
  have h : IdlModule.render (fun _ _ => none) (IdlModule.new none) 0 =
      some (importBlock 0 IMPORT_VEC ++ importBlock 0 IMPORT_SERDE) := by
    simp [IdlModule.render, IdlModule.moduleInfo, IdlModule.renderTypes, IdlModule.renderModules,
      IdlModule.renderConstants, IdlModule.new, usesBlock, String.join]
  show (match IdlModule.render (fun _ _ => none) (IdlModule.new none) 0 with
        | none => GenResult.err .RenderError
        | some root_module_text => GenResult.ok root_module_text) = _
  rw [h]

/-- C1, amended: when the loader cannot produce text for the path of an
include directive, `process` on that directive returns
`FileNotFound(path)` and leaves the module table unchanged; but since
every caller of `process` (the module arm, the catch-all arm and the
driver loop) discards walker errors, generation still succeeds and the
CLI exits zero. -/
theorem C1_amended (loader : String → Option String)
    (parseFn : String → Except PError (List PTree)) (fuel : Nat) (m : IdlModule)
    (scope : Scope) (txt : String) (pos : Nat) (p : PTree) (rest : List PTree)
    (h : loader p.text = none) :
    process loader parseFn (fuel + 1) m scope (.mk .include_directive txt pos (p :: rest)) =
      (m, .err (.FileNotFound p.text)) := by
  simp [process, h]

/-- C1, amended claim witness: the concrete C1 run. -/
theorem C1_amended_witness :
    process c1Loader c1ParseFn 5 (IdlModule.new none) []
        (.mk .include_directive "#include \x22missing.idl\x22" 0
          [.mk .path_spec "missing.idl" 10 []]) =
      (IdlModule.new none,
        .err (.FileNotFound (PTree.mk .path_spec "missing.idl" 10 []).text)) :=
  C1_amended c1Loader c1ParseFn 4 (IdlModule.new none) [] "#include \x22missing.idl\x22" 0
    (.mk .path_spec "missing.idl" 10 []) [] rfl

/-! ## Claim C4: bounded strings and sequences -/

/-- C4, counterexample: the bound of the bounded string fails to lower
(`read_type_spec` returns the error), yet generation still succeeds —
the enclosing declaration is silently dropped, refuting "a parse error
in the bound expression still fails generation". -/
theorem C4_counterexample :
    (read_type_spec [] c4StringType).isErr = true ∧
    generate_with_loader c4Loader c4ParseFn (fun _ _ => none) 10 "root.idl" =
      .ok (importBlock 0 IMPORT_VEC ++ importBlock 0 IMPORT_SERDE) := by
  refine ⟨rfl, ?_⟩
  have h : IdlModule.render (fun _ _ => none) (IdlModule.new none) 0 =
      some (importBlock 0 IMPORT_VEC ++ importBlock 0 IMPORT_SERDE) := by
    simp [IdlModule.render, IdlModule.moduleInfo, IdlModule.renderTypes, IdlModule.renderModules,
      IdlModule.renderConstants, IdlModule.new, usesBlock, String.join]
  show (match IdlModule.render (fun _ _ => none) (IdlModule.new none) 0 with
        | none => GenResult.err .RenderError
        | some root_module_text => GenResult.ok root_module_text) = _
  rw [h]

/-- C4, amended: bounded strings, wide strings and sequences render
exactly like their unbounded forms (the bound is lowered and then
discarded); a parse error in the bound fails the lowering of that type
specifier — and with it the enclosing declaration, which is dropped —
but generation as a whole still succeeds, because the walker's callers
discard declaration-level errors. -/
theorem C4_amended :
    (∀ b : IdlValueExpr,
      IdlTypeSpec.render (.StringType (some b)) = IdlTypeSpec.render (.StringType none) ∧
      IdlTypeSpec.render (.WideStringType (some b)) =
        IdlTypeSpec.render (.WideStringType none)) ∧
    (∀ (scope : Scope) (txt : String) (pos : Nat) (elem bound : PTree) (rest : List PTree)
      (e : IdlValueExpr), read_const_expr scope bound = .ok e →
      read_type_spec scope (.mk .sequence_type txt pos (elem :: bound :: rest)) =
        read_type_spec scope (.mk .sequence_type txt pos [elem])) ∧
    (∀ (scope : Scope) (txt : String) (pos : Nat) (bound : PTree) (rest : List PTree)
      (err : PError), read_const_expr scope bound = .err err →
      read_type_spec scope (.mk .string_type txt pos (bound :: rest)) = .err err ∧
      read_type_spec scope (.mk .wide_string_type txt pos (bound :: rest)) = .err err ∧
      ∀ (elem : PTree) (t : IdlTypeSpec), read_type_spec scope elem = .ok t →
        read_type_spec scope (.mk .sequence_type txt pos (elem :: bound :: rest)) = .err err) := by
  refine ⟨fun b => ⟨rfl, rfl⟩, ?_, ?_⟩
  · intro scope txt pos elem bound rest e he
    cases ht : read_type_spec scope elem with
    | panicked => simp [read_type_spec, ht, Bind.bind]
    | err e2 => simp [read_type_spec, ht, Bind.bind]
    | ok t => simp [read_type_spec, ht, he, Bind.bind]
  · intro scope txt pos bound rest err herr
    refine ⟨?_, ?_, ?_⟩
    · simp [read_type_spec, herr, Bind.bind]
    · simp [read_type_spec, herr, Bind.bind]
    · intro elem t ht
      simp [read_type_spec, ht, herr, Bind.bind]

/-- C4, amended claim witness: a sequence whose bound lowers (rendering
agrees with the unbounded form) and a bounded string whose bound fails
to lower. -/
theorem C4_amended_witness :
    read_type_spec [] (.mk .sequence_type "sequence<octet,8>" 0
        [.mk .octet_type "octet" 9 [], .mk .decimal_integer_literal "8" 15 []]) =
      read_type_spec [] (.mk .sequence_type "sequence<octet,8>" 0
        [.mk .octet_type "octet" 9 []]) ∧
    read_type_spec [] (.mk .string_type "string<@>" 8 [c4BadBound]) =
      .err ⟨"Failed to read 'const expression' in the catch all", 16⟩ := by
  constructor
  · exact C4_amended.2.1 [] "sequence<octet,8>" 0 (.mk .octet_type "octet" 9 [])
      (.mk .decimal_integer_literal "8" 15 []) [] (.DecLiteral "8") rfl
  · exact (C4_amended.2.2 [] "string<@>" 8 c4BadBound []
      ⟨"Failed to read 'const expression' in the catch all", 16⟩ rfl).1

/-! ## Claim C10: union member entries -/

theorem mapM_prime_length_get {α β : Type} (f : α → Option β) :
    ∀ (xs : List α) (ys : List β), List.mapM' f xs = some ys →
      ys.length = xs.length ∧
      ∀ (i : Nat) (h1 : i < xs.length) (h2 : i < ys.length), f xs[i] = some ys[i] := by
  intro xs
  induction xs with
  | nil =>
      intro ys h
      simp [List.mapM'_nil] at h
      subst h
      exact ⟨rfl, fun i h1 => absurd h1 (by simp)⟩
  | cons x rest ih =>
      intro ys h
      rw [List.mapM'_cons] at h
      cases hfx : f x with
      | none => rw [hfx] at h; simp at h
      | some b =>
          rw [hfx] at h
          cases hrest : List.mapM' f rest with
          | none => rw [hrest] at h; simp at h
          | some bs =>
              rw [hrest] at h
              simp at h
              subst h
              obtain ⟨hlen, hget⟩ := ih bs hrest
              refine ⟨by simp [hlen], ?_⟩
              intro i h1 h2
              cases i with
              | zero => simpa using hfx
              | succ n =>
                  simp only [List.getElem_cons_succ]
                  exact hget n (by simpa using h1) (by simpa using h2)

theorem flatten_getElem?_offset {α : Type} :
    ∀ (ls : List (List α)) (i : Nat) (hi : i < ls.length) (j : Nat),
      j < ls[i].length →
      ls.flatten[(((ls.take i).map List.length).sum + j)]? = ls[i][j]? := by
  intro ls
  induction ls with
  | nil => intro i hi; exact absurd hi (by simp)
  | cons l rest ih =>
      intro i hi j hj
      cases i with
      | zero =>
          simp only [List.take_zero, List.map_nil, List.sum_nil, Nat.zero_add,
            List.flatten_cons, List.getElem_cons_zero]
          exact List.getElem?_append_left (by simpa using hj)
      | succ n =>
          simp only [List.take_succ_cons, List.map_cons, List.sum_cons, List.flatten_cons,
            List.getElem_cons_succ]
          rw [Nat.add_assoc, List.getElem?_append_right (by omega)]
          rw [show l.length + (((rest.take n).map List.length).sum + j) - l.length =
            ((rest.take n).map List.length).sum + j from by omega]
          exact ih n (by simpa using hi) j (by simpa using hj)

theorem unionField_of_label (c : IdlSwitchCase) (label : IdlSwitchLabel)
    (entry : IdlSwitchField)
    (h : (do
        pure { name := (← label.renderName),
               element_id := c.elem_spec.id,
               element_type := (← c.elem_spec.type_spec.render) } : Option IdlSwitchField) =
      some entry) :
    some entry.name = label.renderName ∧ entry.element_id = c.elem_spec.id ∧
      some entry.element_type = c.elem_spec.type_spec.render := by
  cases hn : label.renderName with
  | none => rw [hn] at h; simp at h
  | some nm =>
      rw [hn] at h
      cases hr : c.elem_spec.type_spec.render with
      | none => rw [hr] at h; simp at h
      | some ty =>
          rw [hr] at h
          simp at h
          subst h
          exact ⟨rfl, rfl, rfl⟩

/-- Per-case entry lists underlying `unionMembers`: index-wise facts. -/
theorem unionMembersOfCase_get (c : IdlSwitchCase) (entries : List IdlSwitchField)
    (h : unionMembersOfCase c = some entries) :
    entries.length = c.labels.length ∧
    ∀ (j : Nat) (h1 : j < c.labels.length) (h2 : j < entries.length),
      some (entries[j]).name = (c.labels[j]).renderName ∧
      (entries[j]).element_id = c.elem_spec.id ∧
      some (entries[j]).element_type = c.elem_spec.type_spec.render := by
  unfold unionMembersOfCase at h
  rw [← List.mapM'_eq_mapM] at h
  obtain ⟨hlen, hget⟩ := mapM_prime_length_get _ _ _ h
  refine ⟨hlen, fun j h1 h2 => ?_⟩
  exact unionField_of_label c (c.labels[j]) (entries[j]) (hget j h1 h2)

/-- C10: the `union_members` context carries one entry per case label,
iterating cases in source order and each case's labels in source order;
the entry at the flattened position of case `i`, label `j` names the
rendered label (or `default`) and carries that case's single element id
and element type string. -/
theorem C10_union_members (cs : List IdlSwitchCase) (ms : List IdlSwitchField)
    (h : unionMembers cs = some ms) :
    ms.length = (cs.map (fun c => c.labels.length)).sum ∧
    ∀ (i : Nat) (hi : i < cs.length) (j : Nat) (hj : j < (cs[i]).labels.length),
      ∃ entry : IdlSwitchField,
        ms[(((cs.take i).map (fun c => c.labels.length)).sum + j)]? = some entry ∧
        some entry.name = ((cs[i]).labels[j]).renderName ∧
        entry.element_id = (cs[i]).elem_spec.id ∧
        some entry.element_type = (cs[i]).elem_spec.type_spec.render := by
  unfold unionMembers at h
  cases hls : cs.mapM unionMembersOfCase with
  | none => rw [hls] at h; simp at h
  | some ls =>
      rw [hls] at h
      simp at h
      subst h
      rw [← List.mapM'_eq_mapM] at hls
      obtain ⟨hlen, hget⟩ := mapM_prime_length_get _ _ _ hls
      have hmap : ls.map List.length = cs.map (fun c => c.labels.length) := by
        refine List.ext_getElem (by simp [hlen]) ?_
        intro n h1 h2
        have hn1 : n < cs.length := by simpa using h2
        have hn2 : n < ls.length := by simpa using h1
        simp only [List.getElem_map]
        exact (unionMembersOfCase_get (cs[n]) (ls[n]) (hget n hn1 hn2)).1
      constructor
      · rw [List.length_flatten, hmap]
      · intro i hi j hj
        have hi2 : i < ls.length := by omega
        have hcase := unionMembersOfCase_get (cs[i]) (ls[i]) (hget i hi hi2)
        have hj2 : j < (ls[i]).length := by rw [hcase.1]; exact hj
        refine ⟨(ls[i])[j], ?_, hcase.2 j hj hj2⟩
        have hoff : ((cs.take i).map (fun c => c.labels.length)).sum =
            ((ls.take i).map List.length).sum := by
          rw [List.map_take, List.map_take, hmap]
        rw [hoff, flatten_getElem?_offset ls i hi2 j hj2]
        exact List.getElem?_eq_getElem hj2

/-- C10, witness: the `union_members` list of a two-case union, the
first case with two labels. -/
theorem C10_union_members_witness :
    ∃ ms : List IdlSwitchField,
      unionMembers
        [⟨[.Label (.DecLiteral "0"), .Label (.DecLiteral "1")], ⟨"l", .I32Type⟩⟩,
         ⟨[.Default], ⟨"o", .OctetType⟩⟩] = some ms ∧
      ms.length =
        (([⟨[.Label (.DecLiteral "0"), .Label (.DecLiteral "1")], ⟨"l", .I32Type⟩⟩,
           ⟨[.Default], ⟨"o", .OctetType⟩⟩] : List IdlSwitchCase).map
          (fun c => c.labels.length)).sum := by
  refine ⟨[⟨"0", "l", "i32"⟩, ⟨"1", "l", "i32"⟩, ⟨"default", "o", "u8"⟩], rfl, ?_⟩
  exact (C10_union_members
    [⟨[.Label (.DecLiteral "0"), .Label (.DecLiteral "1")], ⟨"l", .I32Type⟩⟩,
     ⟨[.Default], ⟨"o", .OctetType⟩⟩]
    [⟨"0", "l", "i32"⟩, ⟨"1", "l", "i32"⟩, ⟨"default", "o", "u8"⟩] rfl).1

end OmgIdlGen
